import Mathlib

/-!
Shallow embedding of the MomBoss WhatsApp agent core
(src/app/lib/agent.ts, src/app/lib/conversation.ts, the tool executor,
and the verification handlers), together with theorems settling the
frozen claims about it.

External collaborators (the OpenAI chat API, the Prisma storage client,
the WordPress/Dokan HTTP layer, the wall clock) are modelled as explicit
environment records; fallible calls are `Except String _`.  JavaScript
truthiness on the optional fields the code actually tests is modelled by
explicit helper functions.
-/

namespace MomBoss

/-- JS truthiness of an optional string: `undefined`/`null` and `""` are falsy. -/
def optStrTruthy : Option String → Bool
  | none => false
  | some s => !s.isEmpty

/-- JS truthiness of an optional number: `undefined`/`null` and `0` are falsy. -/
def optNatTruthy : Option Nat → Bool
  | none => false
  | some n => n != 0

/-- JS `a || b` on optional numbers (`0` falls through to `b`). -/
def jsOrNat (a b : Option Nat) : Option Nat :=
  if optNatTruthy a then a else b

/-- JS `a || b` on optional strings (`""` falls through to `b`). -/
def jsOrStr (a b : Option String) : Option String :=
  if optStrTruthy a then a else b

-- ============================================
-- DATA MODEL (prisma schema as used by the code)
-- ============================================

/-- Message direction (`MessageDirection` in the Prisma schema). -/
inductive MessageDirection
  | INBOUND
  | OUTBOUND
deriving DecidableEq, Repr

/-- A stored `Message` row, restricted to the fields
`getConversationContext` selects: direction, content, creation time. -/
structure DbMessage where
  direction : MessageDirection
  content : Option String
  createdAt : Nat
deriving DecidableEq, Repr

/-- A `Conversation` row (fields the embedded code reads or writes). -/
structure Conversation where
  id : String
  whatsappNumber : String
  vendorName : Option String := none
  wpUserId : Option Nat := none
  wpStoreId : Option Nat := none
  status : String := "ACTIVE"
deriving DecidableEq, Repr

/-- A `VendorLink` row. -/
structure VendorLink where
  whatsappNumber : String
  wpUserId : Nat
  wpStoreId : Option Nat := none
  storeName : Option String := none
  storeUrl : Option String := none
  verified : Bool := false
  verifiedAt : Option Int := none
deriving DecidableEq, Repr

/-- Role tag of one history entry handed to the model. -/
inductive Role
  | user
  | assistant
deriving DecidableEq, Repr

/-- One entry of `ConversationContext.messageHistory`. -/
structure ChatMsg where
  role : Role
  content : String
deriving DecidableEq, Repr

/-- `ConversationContext` from conversation.ts. -/
structure ConversationContext where
  conversationId : String
  whatsappNumber : String
  vendorName : Option String
  wpUserId : Option Nat
  wpStoreId : Option Nat
  isVerified : Bool
  messageHistory : List ChatMsg
deriving DecidableEq, Repr

-- ============================================
-- conversation.ts : getOrCreateConversation
-- ============================================

/-- `prisma.conversation.findUnique` keyed by the unique `whatsappNumber`. -/
def findConversation (db : List Conversation) (whatsappNumber : String) :
    Option Conversation :=
  db.find? (fun c => c.whatsappNumber = whatsappNumber)

/-- Replace the row with the given id (prisma `update` on a unique id). -/
def updateConversationRow (db : List Conversation) (c : Conversation) :
    List Conversation :=
  db.map (fun x => if x.id = c.id then c else x)

/-- `getOrCreateConversation` (conversation.ts lines 46-77): fetch the row
for the number; create it when absent (with `vendorName: profileName || null`);
when present and `profileName && !conversation.vendorName` holds (JS
truthiness), update only `vendorName`.  Returns the resulting row and the
new table.  `freshId` stands for the id the database mints on create. -/
def getOrCreateConversation (db : List Conversation) (whatsappNumber : String)
    (profileName : Option String) (freshId : String) :
    Conversation × List Conversation :=
  match findConversation db whatsappNumber with
  | none =>
      let c : Conversation :=
        { id := freshId
          whatsappNumber := whatsappNumber
          vendorName := jsOrStr profileName none
          status := "ACTIVE" }
      (c, db ++ [c])
  | some conversation =>
      if optStrTruthy profileName && !optStrTruthy conversation.vendorName then
        let c := { conversation with vendorName := profileName }
        (c, updateConversationRow db c)
      else
        (conversation, db)

-- ============================================
-- conversation.ts : getConversationContext
-- ============================================

/-- JS truthiness filter `(m) => m.content` used on message rows. -/
def contentTruthy (m : DbMessage) : Bool :=
  optStrTruthy m.content

/-- Direction-to-role mapping from `getConversationContext`. -/
def roleOfDirection (d : MessageDirection) : Role :=
  match d with
  | .INBOUND => .user
  | .OUTBOUND => .assistant

/-- The message-history computation of `getConversationContext`
(conversation.ts lines 141-174): the query orders by `createdAt`
descending and takes `maxMessages`; the code then reverses back to
chronological order, filters out rows with falsy content, and maps
direction to role.  `msgs` is the conversation's message list in
chronological (creation) order. -/
def historyWindow (msgs : List DbMessage) (maxMessages : Nat) : List ChatMsg :=
  ((((msgs.reverse).take maxMessages).reverse).filter contentTruthy).map
    (fun m => { role := roleOfDirection m.direction, content := m.content.getD "" })

/-- `getConversationContext` (conversation.ts lines 137-185).  The storage
reads are inputs: the conversation row with its chronological message list
(or `none`), and the `VendorLink` row (or `none`).  A missing conversation
throws. -/
def getConversationContext (found : Option (Conversation × List DbMessage))
    (vendorLink : Option VendorLink) (whatsappNumber : String)
    (maxMessages : Nat := 20) : Except String ConversationContext :=
  match found with
  | none => .error ("No conversation found for " ++ whatsappNumber)
  | some (conversation, msgs) =>
      .ok
        { conversationId := conversation.id
          whatsappNumber := whatsappNumber
          vendorName := conversation.vendorName
          wpUserId := jsOrNat (vendorLink.map (fun l => l.wpUserId)) conversation.wpUserId
          wpStoreId := jsOrNat (vendorLink.bind (fun l => l.wpStoreId)) conversation.wpStoreId
          isVerified := (vendorLink.map (fun l => l.verified)).getD false
          messageHistory := historyWindow msgs maxMessages }

-- ============================================
-- conversation.ts : logAction / linkVendor
-- ============================================

/-- Parameters of `linkVendor` (conversation.ts lines 230-236). -/
structure LinkVendorParams where
  whatsappNumber : String
  wpUserId : Nat
  wpStoreId : Option Nat := none
  storeName : Option String := none
  storeUrl : Option String := none
deriving DecidableEq, Repr

/-- The vendor-link and conversation tables `linkVendor` touches. -/
structure VendorDb where
  conversations : List Conversation
  vendorLinks : List VendorLink
deriving DecidableEq, Repr

/-- Prisma update data with an `undefined` field leaves the column as is. -/
def prismaMergeNat (field : Option Nat) (old : Option Nat) : Option Nat :=
  match field with
  | none => old
  | some v => some v

/-- Prisma update data with an `undefined` field leaves the column as is. -/
def prismaMergeStr (field : Option String) (old : Option String) : Option String :=
  match field with
  | none => old
  | some v => some v

/-- `prisma.vendorLink.upsert` as invoked by `linkVendor`: update the row
with the number when it exists (setting `verified` and `verifiedAt`,
`undefined` params leaving columns untouched), else create it. -/
def upsertVendorLink (links : List VendorLink) (p : LinkVendorParams)
    (now : Int) : List VendorLink :=
  if links.any (fun l => l.whatsappNumber = p.whatsappNumber) then
    links.map (fun l =>
      if l.whatsappNumber = p.whatsappNumber then
        { l with
          wpUserId := p.wpUserId
          wpStoreId := prismaMergeNat p.wpStoreId l.wpStoreId
          storeName := prismaMergeStr p.storeName l.storeName
          storeUrl := prismaMergeStr p.storeUrl l.storeUrl
          verified := true
          verifiedAt := some now }
      else l)
  else
    links ++ [{ whatsappNumber := p.whatsappNumber
                wpUserId := p.wpUserId
                wpStoreId := p.wpStoreId
                storeName := p.storeName
                storeUrl := p.storeUrl
                verified := true
                verifiedAt := some now }]

/-- `linkVendor` (conversation.ts lines 230-274): upsert the `VendorLink`,
then `updateMany` the conversation rows with the same number, setting
`wpUserId` and `wpStoreId`. -/
def linkVendor (db : VendorDb) (p : LinkVendorParams) (now : Int) : VendorDb :=
  { vendorLinks := upsertVendorLink db.vendorLinks p now
    conversations := db.conversations.map (fun c =>
      if c.whatsappNumber = p.whatsappNumber then
        { c with
          wpUserId := some p.wpUserId
          wpStoreId := prismaMergeNat p.wpStoreId c.wpStoreId }
      else c) }

/-- `getVendorLink` (conversation.ts lines 279-283). -/
def getVendorLink (db : VendorDb) (whatsappNumber : String) : Option VendorLink :=
  db.vendorLinks.find? (fun l => l.whatsappNumber = whatsappNumber)

-- ============================================
-- tool-executor (src/unnamed/part_004)
-- ============================================

/-- A Dokan vendor/store as returned by the WordPress layer (the fields
the executor reads: `id`, `store_name`, `email`). -/
structure WpVendor where
  id : Nat
  store_name : Option String := none
  email : Option String := none
deriving DecidableEq, Repr

/-- A WooCommerce product as read by the ad-copy handler. -/
structure WpProduct where
  name : String
  description : Option String := none
  price : Option String := none
deriving DecidableEq, Repr

/-- The duck-typed result object a tool returns to the agent loop.  The
loop and the handlers only inspect `success`, `error`, and (inside the
verifier) `vendor` / `vendors` / `product`; all other payload fields are
abstracted into `payload`.  `success := none` models an object without a
`success` field. -/
structure ToolResult where
  success : Option Bool := none
  error : Option String := none
  verified : Option Bool := none
  vendor : Option WpVendor := none
  vendors : List WpVendor := []
  product : Option WpProduct := none
  message : Option String := none
  payload : String := ""
deriving DecidableEq, Repr

/-- The duck-typed tool input object, restricted to the fields the
in-repository handlers inspect (the remaining fields are forwarded
verbatim to the WordPress layer, modelled by passing the whole input). -/
structure ToolInput where
  store_id : Option Nat := none
  store_email : Option String := none
  vendor_id : Option Nat := none
  product_id : Option Nat := none
  product_name : Option String := none
  product_description : Option String := none
  price : Option String := none
  target_audience : Option String := none
  tone : Option String := none
  insight_type : Option String := none
  topic : Option String := none
  order_id : Option Nat := none
  status : Option String := none
deriving DecidableEq, Repr

/-- The empty argument object `{}` the loop substitutes on parse failure. -/
def emptyToolInput : ToolInput := {}

/-- The WordPress/WooCommerce/Dokan API layer (wordpress.ts) as an
environment: each call may reject (`Except.error`) or resolve to a
result object. -/
structure WpEnv where
  createProduct : ToolInput → Except String ToolResult
  listProducts : Option Nat → ToolInput → Except String ToolResult
  getProduct : Option Nat → Except String ToolResult
  updateProduct : Option Nat → ToolInput → Except String ToolResult
  listOrders : Option Nat → ToolInput → Except String ToolResult
  getOrder : Option Nat → Except String ToolResult
  updateOrderStatus : Option Nat → Option String → Except String ToolResult
  listCategories : ToolInput → Except String ToolResult
  getVendor : Nat → Except String ToolResult
  getVendorDashboardStats : Nat → Except String ToolResult
  createEvent : ToolInput → Except String ToolResult
  listVendors : Except String ToolResult

/-- The JS truthiness test `vendorResult.success && vendorResult.vendor`. -/
def vendorLookupHit (r : ToolResult) : Option WpVendor :=
  if r.success = some true then r.vendor else none

/-- The case-insensitive email comparison of the verifier fallback:
`v.email?.toLowerCase() === input.store_email.toLowerCase()`
(a vendor without an email never matches). -/
def emailMatches (v : WpVendor) (storeEmail : String) : Bool :=
  match v.email with
  | none => false
  | some e => e.toLower == storeEmail.toLower

/-- `handleVerifyVendor` (part_004 lines 164-243).  Strategy 1: truthy
`store_id` drives a store lookup; a hit links the vendor and returns a
success result, a miss returns a failure result.  Strategy 2: truthy
`store_email` searches the vendor list case-insensitively.  Otherwise a
guidance failure result.  Any rejection from the WordPress layer is
caught and converted to a `Verification failed:` result.  Never throws;
returns the result and the possibly updated database. -/
def handleVerifyVendor (wp : WpEnv) (input : ToolInput)
    (context : ConversationContext) (db : VendorDb) (now : Int) :
    ToolResult × VendorDb :=
  if optNatTruthy input.store_id then
    match wp.getVendor (input.store_id.getD 0) with
    | .error e =>
        ({ success := some false, error := some ("Verification failed: " ++ e) }, db)
    | .ok vendorResult =>
        match vendorLookupHit vendorResult with
        | some vendor =>
            let db' := linkVendor db
              { whatsappNumber := context.whatsappNumber
                wpUserId := vendor.id
                wpStoreId := some vendor.id
                storeName := vendor.store_name } now
            ({ success := some true
               verified := some true
               vendor := some { id := vendor.id, store_name := vendor.store_name }
               message := some "Successfully linked!" }, db')
        | none =>
            ({ success := some false
               error := some "Could not find a store with that ID. Please double-check and try again." }, db)
  else if optStrTruthy input.store_email then
    match wp.listVendors with
    | .error e =>
        ({ success := some false, error := some ("Verification failed: " ++ e) }, db)
    | .ok vendorsResult =>
        if vendorsResult.success = some true then
          match vendorsResult.vendors.find?
              (fun v => emailMatches v (input.store_email.getD "")) with
          | some mtch =>
              let db' := linkVendor db
                { whatsappNumber := context.whatsappNumber
                  wpUserId := mtch.id
                  wpStoreId := some mtch.id
                  storeName := mtch.store_name } now
              ({ success := some true
                 verified := some true
                 vendor := some { id := mtch.id, store_name := mtch.store_name }
                 message := some "Successfully linked!" }, db')
          | none =>
              ({ success := some false
                 error := some "Could not find a store with that email address. Please check and try again, or provide your store ID instead." }, db)
        else
          ({ success := some false
             error := some "Please provide either your store email or store ID so I can verify your account." }, db)
  else
    ({ success := some false
       error := some "Please provide either your store email or store ID so I can verify your account." }, db)

/-- `handleGenerateAdCopy` (part_004 lines 249-296): optionally pull the
product from WooCommerce (a truthy `product_id`), then build the three ad
formats (payload abstracted).  Rejections are caught into a failure
result. -/
def handleGenerateAdCopy (wp : WpEnv) (input : ToolInput) : ToolResult :=
  if optNatTruthy input.product_id then
    match wp.getProduct input.product_id with
    | .error e => { success := some false, error := some ("Failed to generate ad copy: " ++ e) }
    | .ok product =>
        let productName :=
          if product.success = some true then
            match product.product with
            | some p => p.name
            | none => (input.product_name.getD "")
          else (input.product_name.getD "")
        { success := some true, payload := "ad_copy:" ++ productName }
  else
    { success := some true, payload := "ad_copy:" ++ (input.product_name.getD "") }

/-- `handleBusinessInsights` (part_004 lines 302-413): sub-dispatch on
`insight_type`; the account-backed branches fail with a link prompt when
no vendor id is derivable; rejections are caught into a failure result.
Report payloads are abstracted. -/
def handleBusinessInsights (wp : WpEnv) (input : ToolInput)
    (context : ConversationContext) : ToolResult :=
  let vendorId := jsOrNat input.vendor_id context.wpStoreId
  match input.insight_type with
  | some "sales_summary" =>
      if !optNatTruthy vendorId then
        { success := some false, error := some "Vendor not verified. Link your store first!" }
      else
        match wp.getVendorDashboardStats (vendorId.getD 0), wp.listOrders vendorId emptyToolInput with
        | .ok _, .ok _ => { success := some true, payload := "insights:sales_summary" }
        | .error e, _ => { success := some false, error := some ("Failed to get insights: " ++ e) }
        | _, .error e => { success := some false, error := some ("Failed to get insights: " ++ e) }
  | some "product_recommendations" =>
      { success := some true, payload := "insights:product_recommendations" }
  | some "pricing_advice" =>
      if !optNatTruthy vendorId then
        { success := some false, error := some "Vendor not verified. Link your store first!" }
      else
        match wp.listProducts vendorId emptyToolInput with
        | .ok _ => { success := some true, payload := "insights:pricing_advice" }
        | .error e => { success := some false, error := some ("Failed to get insights: " ++ e) }
  | some "marketing_tips" =>
      { success := some true, payload := "insights:marketing_tips" }
  | some "weekly_report" =>
      if !optNatTruthy vendorId then
        { success := some false, error := some "Vendor not verified. Link your store first!" }
      else
        match wp.getVendorDashboardStats (vendorId.getD 0), wp.listOrders vendorId emptyToolInput,
              wp.listProducts vendorId emptyToolInput with
        | .ok _, .ok _, .ok _ => { success := some true, payload := "insights:weekly_report" }
        | .error e, _, _ => { success := some false, error := some ("Failed to get insights: " ++ e) }
        | _, .error e, _ => { success := some false, error := some ("Failed to get insights: " ++ e) }
        | _, _, .error e => { success := some false, error := some ("Failed to get insights: " ++ e) }
  | other =>
      { success := some false
        error := some ("Unknown insight type: " ++ (other.getD "")) }

/-- The help-topic keys of `getHelpText` (part_004 lines 419-523); the
long help texts are abstracted into tags. -/
def helpTopics : List (String × String) :=
  [("general", "help:general"), ("products", "help:products"),
   ("orders", "help:orders"), ("store", "help:store"),
   ("events", "help:events"), ("advertising", "help:advertising"),
   ("insights", "help:insights")]

/-- `getHelpText`: look up `topic || 'general'`, falling back to the
general text. -/
def getHelpText (topic : Option String) : ToolResult :=
  let key := (jsOrStr topic (some "general")).getD "general"
  let text :=
    match helpTopics.find? (fun kv => kv.fst = key) with
    | some kv => kv.snd
    | none => "help:general"
  { success := some true, payload := text }

/-- The tool names the executor switch declares (part_004 lines 26-150). -/
def knownToolNames : List String :=
  ["create_product", "list_products", "get_product", "update_product",
   "list_orders", "get_order", "update_order_status", "list_categories",
   "get_vendor_info", "get_vendor_stats", "create_event", "verify_vendor",
   "generate_ad_copy", "get_business_insights", "get_help"]

/-- `executeTool` (part_004 lines 21-158): the switch on the tool name.
Branches that call the WordPress layer rethrow its rejections (the agent
loop catches them); the default branch returns a structured failure.
Returns the outcome and the possibly updated database (only
`verify_vendor` writes). -/
def executeTool (wp : WpEnv) (toolName : String) (input : ToolInput)
    (context : ConversationContext) (db : VendorDb) (now : Int) :
    Except String ToolResult × VendorDb :=
  if toolName = "create_product" then
    (wp.createProduct input, db)
  else if toolName = "list_products" then
    (wp.listProducts (jsOrNat context.wpUserId none) input, db)
  else if toolName = "get_product" then
    (wp.getProduct input.product_id, db)
  else if toolName = "update_product" then
    (wp.updateProduct input.product_id input, db)
  else if toolName = "list_orders" then
    (wp.listOrders (jsOrNat context.wpUserId none) input, db)
  else if toolName = "get_order" then
    (wp.getOrder input.order_id, db)
  else if toolName = "update_order_status" then
    (wp.updateOrderStatus input.order_id input.status, db)
  else if toolName = "list_categories" then
    (wp.listCategories input, db)
  else if toolName = "get_vendor_info" then
    let vendorId := jsOrNat input.vendor_id context.wpStoreId
    if !optNatTruthy vendorId then
      (.ok { success := some false
             error := some "No vendor ID available. The vendor needs to verify their account first." }, db)
    else
      (wp.getVendor (vendorId.getD 0), db)
  else if toolName = "get_vendor_stats" then
    let vendorId := jsOrNat input.vendor_id context.wpStoreId
    if !optNatTruthy vendorId then
      (.ok { success := some false
             error := some "No vendor ID available. The vendor needs to verify their account first." }, db)
    else
      (wp.getVendorDashboardStats (vendorId.getD 0), db)
  else if toolName = "create_event" then
    (wp.createEvent input, db)
  else if toolName = "verify_vendor" then
    let (r, db') := handleVerifyVendor wp input context db now
    (.ok r, db')
  else if toolName = "generate_ad_copy" then
    (.ok (handleGenerateAdCopy wp input), db)
  else if toolName = "get_business_insights" then
    (.ok (handleBusinessInsights wp input context), db)
  else if toolName = "get_help" then
    (.ok (getHelpText input.topic), db)
  else
    (.ok { success := some false, error := some ("Unknown tool: " ++ toolName) }, db)

-- ============================================
-- agent.ts : the agent loop
-- ============================================

/-- An `ActionLog` row as written by `logAction`. -/
structure ActionLogEntry where
  whatsappNumber : String
  action : String
  toolName : String
  input : ToolInput
  output : Option ToolResult
  success : Bool
  errorMessage : Option String
  durationMs : Int
deriving DecidableEq, Repr

/-- `logAction` (conversation.ts lines 194-221): attempt the insert;
a failing write (`writeOk = false`) is swallowed (only locally logged)
and the table is left unchanged.  Never throws. -/
def logActionWrite (writeOk : Bool) (log : List ActionLogEntry)
    (entry : ActionLogEntry) : List ActionLogEntry :=
  if writeOk then log ++ [entry] else log

/-- One `tool_calls` item of a chat-completions response.  `isFunction`
models `toolCall.type === 'function'`; `argumentsStr` is the raw JSON
argument string. -/
structure ModelToolCall where
  id : String
  isFunction : Bool
  name : String
  argumentsStr : String
deriving DecidableEq, Repr

/-- The message of `response.choices[0]` plus the usage count:
`content` (nullable text), `tool_calls || []`, `finish_reason`,
`usage?.total_tokens || 0`. -/
structure ModelResponse where
  content : Option String := none
  toolCalls : List ModelToolCall := []
  finishReason : String := "stop"
  totalTokens : Nat := 0
deriving DecidableEq, Repr

/-- A transcript turn of the messages array sent to the model. -/
inductive ChatTurn
  | system (content : String)
  | user (content : String)
  | assistant (content : Option String) (toolCalls : List ModelToolCall)
  | toolResult (toolCallId : String) (content : Except String ToolResult)
deriving Repr

/-- One element of `AgentResponse.toolCalls`. -/
structure ToolCallRecord where
  name : String
  input : ToolInput
  result : ToolResult
deriving DecidableEq, Repr

/-- `AgentResponse` from agent.ts (optional fields stay `undefined` on
the apology path). -/
structure AgentResponse where
  reply : String
  toolCalls : Option (List ToolCallRecord)
  tokensUsed : Option Nat
deriving DecidableEq, Repr

/-- Ghost audit record of one dispatcher invocation made by the loop. -/
structure InvRecord where
  toolName : String
  rawArgs : String
  input : ToolInput
  outcome : Except String ToolResult
  entry : ActionLogEntry
deriving Repr

/-- The external world of `processMessage`: the context lookup outcome,
the model call per invocation index (which may throw), `JSON.parse` of
argument strings (`none` = parse failure), the dispatcher, the fate of
each Action Log write, and the elapsed milliseconds of each tool
invocation. -/
structure AgentEnv where
  contextResult : Except String ConversationContext
  modelResponse : Nat → Except String ModelResponse
  parseArgs : String → Option ToolInput
  execTool : String → ToolInput → ConversationContext → Except String ToolResult
  logWriteOk : Nat → Bool
  toolDelta : Nat → Nat

/-- Mutable state of one `processMessage` run (`messages`, `allToolCalls`,
`totalTokens`, `finalReply`, `rounds`), the wall clock, the Action Log
table with the ghost list of attempted writes, and the ghost invocation
trace. -/
structure LoopState where
  messages : List ChatTurn
  allToolCalls : List ToolCallRecord
  totalTokens : Nat
  finalReply : String
  rounds : Nat
  modelCalls : Nat
  now : Int
  actionLog : List ActionLogEntry
  logAttempts : List ActionLogEntry
  invocations : List InvRecord

/-- `MAX_TOOL_ROUNDS` (agent.ts line 35; the content-block variant in
part_006 uses 5). -/
def MAX_TOOL_ROUNDS : Nat := 3

/-- The hardcoded fallback reply of the clean-stop branch. -/
def fallbackReply : String := "I\x27m here to help! What can I do for you today?"

/-- The fixed apology reply of the top-level catch. -/
def apologyReply : String := "Sorry, I ran into a problem. Please try again in a moment."

/-- Rendering of an optional numeric id inside the template string. -/
def showOptNat : Option Nat → String
  | some n => toString n
  | none => "null"

/-- `buildSystemPrompt` (agent.ts lines 41-96): the instructions are
branched on `context.isVerified`; the static tail is abridged to its
lead line (no claim concerns the prompt text beyond the branch). -/
def buildSystemPrompt (context : ConversationContext) : String :=
  let vendorInfo :=
    if context.isVerified then
      "VENDOR STATUS: Verified & Linked\nVendor Name: "
        ++ ((jsOrStr context.vendorName (some "Unknown")).getD "Unknown")
        ++ "\nWordPress User ID: " ++ showOptNat context.wpUserId
        ++ "\nDokan Store ID: "
        ++ (if optNatTruthy context.wpStoreId then showOptNat context.wpStoreId else "Not linked")
        ++ "\nYou can perform store actions for this vendor.\n"
    else
      "VENDOR STATUS: Not yet verified\nThis vendor has NOT linked their WhatsApp to their MomBoss store.\nBefore doing any store actions, help them verify by asking for their store email or store ID.\nUse the verify_vendor tool once they provide this information.\nYou can still answer general questions and explain what MomBoss offers.\n"
  "You are the MomBoss AI Agent — an AI assistant for women entrepreneurs on momboss.space.\n\n"
    ++ vendorInfo

/-- The initial messages array: system prompt, mapped history, then the
current user message. -/
def initialMessages (context : ConversationContext) (systemPrompt : String)
    (currentMessageContent : String) : List ChatTurn :=
  ChatTurn.system systemPrompt ::
    (context.messageHistory.map (fun m =>
      match m.role with
      | .user => ChatTurn.user m.content
      | .assistant => ChatTurn.assistant (some m.content) []))
    ++ [ChatTurn.user currentMessageContent]

/-- One iteration of the `for (const toolCall of toolCallsInResponse)`
body (agent.ts lines 184-246): skip non-function calls; parse the
arguments, substituting `{}` on failure; invoke the dispatcher; on either
outcome push the audit record, attempt exactly one Action Log write with
`success := result?.success !== false` (or `false` when the tool threw)
and the elapsed duration, and append the tool-result message. -/
def performToolCall (env : AgentEnv) (context : ConversationContext)
    (whatsappNumber : String) (st : LoopState) (tc : ModelToolCall) : LoopState :=
  if !tc.isFunction then st
  else
    let toolInput := (env.parseArgs tc.argumentsStr).getD emptyToolInput
    let toolStartTime := st.now
    let nowAfter := st.now + (env.toolDelta st.invocations.length : Int)
    let duration := nowAfter - toolStartTime
    match env.execTool tc.name toolInput context with
    | .ok result =>
        let entry : ActionLogEntry :=
          { whatsappNumber := whatsappNumber
            action := tc.name
            toolName := tc.name
            input := toolInput
            output := some result
            success := decide (result.success ≠ some false)
            errorMessage := result.error
            durationMs := duration }
        { st with
          now := nowAfter
          allToolCalls := st.allToolCalls ++ [{ name := tc.name, input := toolInput, result := result }]
          actionLog := logActionWrite (env.logWriteOk st.logAttempts.length) st.actionLog entry
          logAttempts := st.logAttempts ++ [entry]
          invocations := st.invocations ++
            [{ toolName := tc.name, rawArgs := tc.argumentsStr, input := toolInput,
               outcome := .ok result, entry := entry }]
          messages := st.messages ++ [ChatTurn.toolResult tc.id (.ok result)] }
    | .error e =>
        let entry : ActionLogEntry :=
          { whatsappNumber := whatsappNumber
            action := tc.name
            toolName := tc.name
            input := toolInput
            output := none
            success := false
            errorMessage := some e
            durationMs := duration }
        { st with
          now := nowAfter
          actionLog := logActionWrite (env.logWriteOk st.logAttempts.length) st.actionLog entry
          logAttempts := st.logAttempts ++ [entry]
          invocations := st.invocations ++
            [{ toolName := tc.name, rawArgs := tc.argumentsStr, input := toolInput,
               outcome := .error e, entry := entry }]
          messages := st.messages ++ [ChatTurn.toolResult tc.id (.error e)] }

/-- How one round ended. -/
inductive RoundOutcome
  | broke
  | continued
  | threw
deriving DecidableEq, Repr

/-- One iteration of the `while (rounds < MAX_TOOL_ROUNDS)` body
(agent.ts lines 148-247): bump the counter, call the model (a rejection
propagates to the top-level catch), accumulate tokens, capture truthy
text (trimmed), and either break — substituting the hardcoded fallback
when no text was captured — or execute every tool call and continue. -/
def runRound (env : AgentEnv) (context : ConversationContext)
    (whatsappNumber : String) (st : LoopState) : LoopState × RoundOutcome :=
  let callIdx := st.modelCalls
  let st1 := { st with rounds := st.rounds + 1, modelCalls := st.modelCalls + 1 }
  match env.modelResponse callIdx with
  | .error _ => (st1, .threw)
  | .ok response =>
      let st2 := { st1 with totalTokens := st1.totalTokens + response.totalTokens }
      let st3 :=
        if optStrTruthy response.content then
          { st2 with finalReply := (response.content.getD "").trim }
        else st2
      let toolCallsInResponse := response.toolCalls
      if toolCallsInResponse.length = 0 ∨ response.finishReason = "stop" then
        (if st3.finalReply = "" then { st3 with finalReply := fallbackReply } else st3, .broke)
      else
        let st4 := { st3 with
          messages := st3.messages ++ [ChatTurn.assistant response.content response.toolCalls] }
        (toolCallsInResponse.foldl (performToolCall env context whatsappNumber) st4, .continued)

/-- How the whole loop ended (`threw` reaches the top-level catch). -/
inductive LoopExit
  | normal
  | threw
deriving DecidableEq, Repr

/-- The `while (rounds < MAX_TOOL_ROUNDS)` loop, with the remaining
round budget as fuel. -/
def runRounds (env : AgentEnv) (context : ConversationContext)
    (whatsappNumber : String) : Nat → LoopState → LoopState × LoopExit
  | 0, st => (st, .normal)
  | fuel + 1, st =>
      match runRound env context whatsappNumber st with
      | (st', .threw) => (st', .threw)
      | (st', .broke) => (st', .normal)
      | (st', .continued) => runRounds env context whatsappNumber fuel st'

/-- The loop state at entry. -/
def initLoopState (messages : List ChatTurn) : LoopState :=
  { messages := messages, allToolCalls := [], totalTokens := 0, finalReply := "",
    rounds := 0, modelCalls := 0, now := 0, actionLog := [], logAttempts := [],
    invocations := [] }

/-- The current user message, annotated with the media marker when a
media url is attached (JS truthiness). -/
def currentContent (userMessage : String) (mediaUrl : Option String) : String :=
  if optStrTruthy mediaUrl then
    userMessage ++ "\n\n[The vendor sent an image/file: " ++ mediaUrl.getD "" ++ "]"
  else userMessage

/-- The loop state `processMessage` starts from once the context is
built: the composed messages array and zeroed counters. -/
def initState (context : ConversationContext) (userMessage : String)
    (mediaUrl : Option String) : LoopState :=
  initLoopState
    (initialMessages context (buildSystemPrompt context) (currentContent userMessage mediaUrl))

/-- `processMessage` (agent.ts lines 112-270) together with its final
loop state (for auditing): build the context and the messages array,
drive the round loop, and return the reply, the tool-call list (or
`undefined` when empty) and the token count; any error from context
lookup or a model call is caught at the top level and converted into the
fixed apology reply. -/
def processMessageFull (env : AgentEnv) (maxToolRounds : Nat)
    (whatsappNumber userMessage : String) (mediaUrl : Option String) :
    AgentResponse × LoopState :=
  match env.contextResult with
  | .error _ =>
      ({ reply := apologyReply, toolCalls := none, tokensUsed := none },
       initLoopState [])
  | .ok context =>
      match runRounds env context whatsappNumber maxToolRounds
          (initState context userMessage mediaUrl) with
      | (st, .threw) =>
          ({ reply := apologyReply, toolCalls := none, tokensUsed := none }, st)
      | (st, .normal) =>
          ({ reply := st.finalReply
             toolCalls := if st.allToolCalls.length > 0 then some st.allToolCalls else none
             tokensUsed := some st.totalTokens }, st)

/-- The exposed entry point: the `AgentResponse` alone. -/
def processMessage (env : AgentEnv) (maxToolRounds : Nat)
    (whatsappNumber userMessage : String) (mediaUrl : Option String) :
    AgentResponse :=
  (processMessageFull env maxToolRounds whatsappNumber userMessage mediaUrl).1

-- ============================================
-- Spec-side definitions (for refinement statements)
-- ============================================

/-- Spec-side reading of the history query: the `maxMessages` most
recent messages, in chronological order. -/
def specRecentWindow (msgs : List DbMessage) (maxMessages : Nat) : List DbMessage :=
  msgs.drop (msgs.length - maxMessages)

/-- Spec-side reading of the context history: the most recent window,
empty-content messages removed, direction mapped to role. -/
def specHistory (msgs : List DbMessage) (maxMessages : Nat) : List ChatMsg :=
  ((specRecentWindow msgs maxMessages).filter contentTruthy).map
    (fun m => { role := roleOfDirection m.direction, content := m.content.getD "" })

/-- Round `i` of the model oracle is a tool round: the call resolves,
requests at least one tool call, and does not finish with `stop` —
the loop neither breaks nor throws there. -/
def isToolRound (env : AgentEnv) (i : Nat) : Bool :=
  match env.modelResponse i with
  | .ok r => !(r.toolCalls.length = 0 : Bool) && !(r.finishReason == "stop")
  | .error _ => false

/-- Every one of the first `cap` oracle rounds is a tool round: the
round budget is exhausted without a clean stop. -/
def allToolRounds (env : AgentEnv) (cap : Nat) : Bool :=
  (List.range cap).all (fun i => isToolRound env i)

/-- Whether the context lookup resolves. -/
def contextOk (env : AgentEnv) : Bool :=
  match env.contextResult with
  | .ok _ => true
  | .error _ => false

/-- The running captured text over oracle rounds `start, …,
start+fuel-1`: truthy text overwrites the accumulator, trimmed. -/
def lastCapturedTextAux (env : AgentEnv) : Nat → Nat → String → String
  | _, 0, acc => acc
  | start, fuel + 1, acc =>
      lastCapturedTextAux env (start + 1) fuel
        (match env.modelResponse start with
         | .ok r => if optStrTruthy r.content then (r.content.getD "").trim else acc
         | .error _ => acc)

/-- The last text the model produced over the first `cap` rounds
(empty when no round produced truthy text). -/
def lastCapturedText (env : AgentEnv) (cap : Nat) : String :=
  lastCapturedTextAux env 0 cap ""

/-- The state after the bookkeeping prefix of one round: counters
bumped, tokens accumulated, truthy text captured (trimmed). -/
def captureText (st : LoopState) (r : ModelResponse) : LoopState :=
  let st1 := { st with rounds := st.rounds + 1, modelCalls := st.modelCalls + 1 }
  let st2 := { st1 with totalTokens := st1.totalTokens + r.totalTokens }
  if optStrTruthy r.content then { st2 with finalReply := (r.content.getD "").trim } else st2

/-- The state a breaking round ends in: the fallback substituted when
nothing was captured. -/
def breakState (st : LoopState) (r : ModelResponse) : LoopState :=
  if (captureText st r).finalReply = "" then
    { captureText st r with finalReply := fallbackReply }
  else captureText st r

/-- The state a continuing round hands to its tool-call fold: the
assistant turn appended. -/
def contState (st : LoopState) (r : ModelResponse) : LoopState :=
  { captureText st r with
    messages := (captureText st r).messages ++ [ChatTurn.assistant r.content r.toolCalls] }

/-- All the facts the loop guarantees for one recorded dispatcher
invocation: the log entry's flag is false exactly when the tool threw or
its result carried `success: false`; its duration is non-negative; its
names and input mirror the invocation; arguments that failed to parse
were replaced by the empty object; and the dispatcher was called on
exactly the recorded input. -/
def invGood (env : AgentEnv) (context : ConversationContext) (inv : InvRecord) : Prop :=
  (inv.entry.success = false ↔
    ((∃ e, inv.outcome = .error e) ∨ (∃ r, inv.outcome = .ok r ∧ r.success = some false)))
  ∧ 0 ≤ inv.entry.durationMs
  ∧ inv.entry.toolName = inv.toolName
  ∧ inv.entry.input = inv.input
  ∧ (env.parseArgs inv.rawArgs = none → inv.input = emptyToolInput)
  ∧ inv.outcome = env.execTool inv.toolName inv.input context

/-- The loop invariant tying the audit ghosts to the log tables: every
recorded invocation attempted exactly one log write (in order), the
persisted table equals the attempts when every write lands, and each
recorded invocation is good. -/
def StInv (env : AgentEnv) (c : ConversationContext) (st : LoopState) : Prop :=
  st.logAttempts = st.invocations.map (fun i => i.entry)
  ∧ ((∀ k, env.logWriteOk k = true) → st.actionLog = st.logAttempts)
  ∧ (∀ inv ∈ st.invocations, invGood env c inv)

-- ============================================
-- Concrete fixtures (for witnesses and counterexamples)
-- ============================================

/-- A minimal conversation context fixture. -/
def ctx0 : ConversationContext :=
  { conversationId := "cv1", whatsappNumber := "+254700000001", vendorName := none,
    wpUserId := none, wpStoreId := none, isVerified := false, messageHistory := [] }

/-- An empty database fixture. -/
def db0 : VendorDb := { conversations := [], vendorLinks := [] }

/-- A WordPress layer whose calls all resolve to the empty result. -/
def wpEnvNull : WpEnv :=
  { createProduct := fun _ => .ok {}
    listProducts := fun _ _ => .ok {}
    getProduct := fun _ => .ok {}
    updateProduct := fun _ _ => .ok {}
    listOrders := fun _ _ => .ok {}
    getOrder := fun _ => .ok {}
    updateOrderStatus := fun _ _ => .ok {}
    listCategories := fun _ => .ok {}
    getVendor := fun _ => .ok {}
    getVendorDashboardStats := fun _ => .ok {}
    createEvent := fun _ => .ok {}
    listVendors := .ok {} }

/-- The store fixture for the verification claims. -/
def vendorMary : WpVendor :=
  { id := 7, store_name := some "Mary Store", email := some "mary@shop.ke" }

/-- A WordPress layer that knows exactly store 7. -/
def wpEnvC5 : WpEnv :=
  { wpEnvNull with
    getVendor := fun sid =>
      if sid = 7 then .ok { success := some true, vendor := some vendorMary }
      else .ok { success := some false, error := some "Get vendor" } }

/-- `verify_vendor` input carrying the matching store id. -/
def inputStoreId7 : ToolInput := { store_id := some 7 }

/-- `verify_vendor` input carrying a non-matching store id. -/
def inputStoreId8 : ToolInput := { store_id := some 8 }

/-- A WordPress layer with one listed vendor with a mixed-case email. -/
def wpEnvC9 : WpEnv :=
  { wpEnvNull with
    listVendors := .ok
      { success := some true
        vendors := [{ id := 9, store_name := some "Sunrise", email := some "Alice@Shop.KE" }] } }

/-- `verify_vendor` input carrying a store email. -/
def inputEmailAlice : ToolInput := { store_email := some "Alice@Shop.KE" }

/-- A conversation row whose vendorName is the non-null empty string. -/
def convBlankName : Conversation :=
  { id := "cv10", whatsappNumber := "+254711000002", vendorName := some "" }

/-- A conversation row with a non-empty display name. -/
def convMary : Conversation :=
  { id := "cv11", whatsappNumber := "+254722000003", vendorName := some "Mary" }

/-- Message fixture: an outbound reply, an empty inbound, a final
inbound text. -/
def msgsC6 : List DbMessage :=
  [{ direction := .OUTBOUND, content := some "Hello!", createdAt := 1 },
   { direction := .INBOUND, content := none, createdAt := 2 },
   { direction := .INBOUND, content := some "Show products", createdAt := 3 }]

/-- The conversation row for the context-builder witness. -/
def convC6 : Conversation := { id := "cv6", whatsappNumber := "+254733000004" }

/-- The context the builder produces from `convC6` and `msgsC6`. -/
def ctxC6 : ConversationContext :=
  { conversationId := "cv6", whatsappNumber := "+254733000004", vendorName := none,
    wpUserId := none, wpStoreId := none, isVerified := false,
    messageHistory := [{ role := .assistant, content := "Hello!" },
                       { role := .user, content := "Show products" }] }

/-- A function-typed model tool call with an unparseable argument string. -/
def toolCallA : ModelToolCall :=
  { id := "call_1", isFunction := true, name := "get_help", argumentsStr := "not json" }

/-- A base agent environment: context resolves to `ctx0`, the model
stops cleanly with text, arguments never parse, tools resolve, log
writes land, each tool takes 5 ms. -/
def baseEnv : AgentEnv :=
  { contextResult := .ok ctx0
    modelResponse := fun _ =>
      .ok { content := some "Hi there!", toolCalls := [], finishReason := "stop", totalTokens := 3 }
    parseArgs := fun _ => none
    execTool := fun _ _ _ => .ok { success := some true }
    logWriteOk := fun _ => true
    toolDelta := fun _ => 5 }

/-- An environment where every round requests a tool and produces no
text: the loop exhausts its budget with nothing captured. -/
def envExhaustNoText : AgentEnv :=
  { baseEnv with
    modelResponse := fun _ =>
      .ok { content := none, toolCalls := [toolCallA], finishReason := "tool_calls", totalTokens := 7 } }

/-- An environment where every round requests a tool but round 0 also
produces text: the loop exhausts its budget with text captured. -/
def envExhaustWithText : AgentEnv :=
  { baseEnv with
    modelResponse := fun i =>
      if i = 0 then
        .ok { content := some "Working on it", toolCalls := [toolCallA],
              finishReason := "tool_calls", totalTokens := 7 }
      else
        .ok { content := none, toolCalls := [toolCallA],
              finishReason := "tool_calls", totalTokens := 7 } }

/-- An environment with one tool round (unparseable arguments) followed
by a clean stop. -/
def envOneToolRound : AgentEnv :=
  { baseEnv with
    modelResponse := fun i =>
      if i = 0 then
        .ok { content := none, toolCalls := [toolCallA],
              finishReason := "tool_calls", totalTokens := 7 }
      else
        .ok { content := none, toolCalls := [], finishReason := "stop", totalTokens := 4 } }

/-- Placeholder log entry (used only as a `headD` default). -/
def nullEntry : ActionLogEntry :=
  { whatsappNumber := "", action := "", toolName := "", input := emptyToolInput,
    output := none, success := false, errorMessage := none, durationMs := 0 }

/-- Placeholder invocation record (used only as a `headD` default). -/
def nullInv : InvRecord :=
  { toolName := "", rawArgs := "", input := emptyToolInput, outcome := .ok {}, entry := nullEntry }

/-- The first invocation recorded in the one-tool-round environment. -/
def invC7 : InvRecord :=
  ((processMessageFull envOneToolRound MAX_TOOL_ROUNDS "+254700000001" "hi" none).2.invocations).headD nullInv

/-- The first invocation recorded in the exhausting environment. -/
def invC4 : InvRecord :=
  ((processMessageFull envExhaustNoText MAX_TOOL_ROUNDS "+254700000001" "hi" none).2.invocations).headD nullInv

-- ============================================
-- THEOREMS
-- ============================================

/-- C8: for every tool name outside the dispatcher's declared set, and
for every input, context and database, `executeTool` returns the
structured failure `{ success: false, error: "Unknown tool: …" }`
without throwing and without touching the database. -/
theorem executeTool_unknown_tool_structured_failure
    (wp : WpEnv) (toolName : String) (input : ToolInput)
    (context : ConversationContext) (db : VendorDb) (now : Int)
    (h : toolName ∉ knownToolNames) :
    executeTool wp toolName input context db now =
      (.ok { success := some false, error := some ("Unknown tool: " ++ toolName) }, db) := by
  simp only [knownToolNames, List.mem_cons, List.not_mem_nil, or_false, not_or] at h
  obtain ⟨h1, h2, h3, h4, h5, h6, h7, h8, h9, h10, h11, h12, h13, h14, h15⟩ := h
  simp [executeTool, h1, h2, h3, h4, h5, h6, h7, h8, h9, h10, h11, h12, h13, h14, h15]

/-- Witness for C8 at the concrete undeclared tool name "do_magic". -/
theorem executeTool_unknown_tool_structured_failure_witness :
    executeTool wpEnvNull "do_magic" emptyToolInput ctx0 db0 0 =
      (.ok { success := some false, error := some ("Unknown tool: " ++ "do_magic") }, db0) :=
  executeTool_unknown_tool_structured_failure wpEnvNull "do_magic" emptyToolInput ctx0 db0 0
    (by decide)

/-- C10 counterexample: the claim says a non-null `vendorName` is never
overwritten, but the code tests JS truthiness, so the non-null empty
string `some ""` is overwritten by the supplied profile name. -/
theorem getOrCreateConversation_overwrites_nonnull_blank_name :
    convBlankName.vendorName = some "" ∧ (some "" : Option String) ≠ none ∧
    (getOrCreateConversation [convBlankName] "+254711000002" (some "Alice") "fresh").1.vendorName
      = some "Alice" := by
  refine ⟨rfl, by decide, ?_⟩
  rfl

/-- C10 (amended): `getOrCreateConversation` never overwrites a
non-empty display name — for every existing Conversation whose
`vendorName` is truthy (non-null and non-empty), calling it with any
profileName returns the row and the table unchanged; a profile name is
written post-creation only when the stored `vendorName` is null or
empty. -/
theorem getOrCreateConversation_preserves_nonblank_name
    (db : List Conversation) (num : String) (profileName : Option String)
    (freshId : String) (c : Conversation) (s : String)
    (hfind : findConversation db num = some c)
    (hname : c.vendorName = some s) (hs : s ≠ "") :
    getOrCreateConversation db num profileName freshId = (c, db) := by
  have hie : s.isEmpty = false := by
    cases hse : s.isEmpty
    · rfl
    · exact absurd ((String.isEmpty_iff s).mp hse) hs
  simp [getOrCreateConversation, hfind, hname, optStrTruthy, hie]

/-- Witness for C10 (amended) at the concrete row `convMary`. -/
theorem getOrCreateConversation_preserves_nonblank_name_witness :
    getOrCreateConversation [convMary] "+254722000003" (some "Felicity") "fresh2"
      = (convMary, [convMary]) :=
  getOrCreateConversation_preserves_nonblank_name [convMary] "+254722000003" (some "Felicity")
    "fresh2" convMary "Mary" (by decide) rfl (by decide)

/-- `find?` only depends on the predicate pointwise. -/
theorem list_find?_congr {α : Type} (p q : α → Bool) (h : ∀ a, p a = q a) :
    ∀ l : List α, l.find? p = l.find? q := by
  intro l
  induction l with
  | nil => rfl
  | cons a t ih =>
      simp only [List.find?_cons, h a, ih]

/-- After `linkVendor`, the vendor-link table holds a verified link for
the number, carrying the supplied account ids. -/
theorem getVendorLink_after_linkVendor (db : VendorDb) (p : LinkVendorParams)
    (now : Int) (k : Nat) (hk : p.wpStoreId = some k) :
    ∃ l, getVendorLink (linkVendor db p now) p.whatsappNumber = some l ∧
      l.verified = true ∧ l.wpUserId = p.wpUserId ∧ l.wpStoreId = some k := by
  simp only [getVendorLink, linkVendor, upsertVendorLink]
  by_cases hany : db.vendorLinks.any (fun l => l.whatsappNumber = p.whatsappNumber)
  · simp only [hany, if_true]
    have hmapfind :
        (db.vendorLinks.map (fun l =>
            if l.whatsappNumber = p.whatsappNumber then
              { l with
                wpUserId := p.wpUserId
                wpStoreId := prismaMergeNat p.wpStoreId l.wpStoreId
                storeName := prismaMergeStr p.storeName l.storeName
                storeUrl := prismaMergeStr p.storeUrl l.storeUrl
                verified := true
                verifiedAt := some now }
            else l)).find? (fun l => l.whatsappNumber = p.whatsappNumber)
          = ((db.vendorLinks.find? (fun l => l.whatsappNumber = p.whatsappNumber)).map
              (fun l =>
                if l.whatsappNumber = p.whatsappNumber then
                  { l with
                    wpUserId := p.wpUserId
                    wpStoreId := prismaMergeNat p.wpStoreId l.wpStoreId
                    storeName := prismaMergeStr p.storeName l.storeName
                    storeUrl := prismaMergeStr p.storeUrl l.storeUrl
                    verified := true
                    verifiedAt := some now }
                else l)) := by
      rw [List.find?_map]
      congr 1
      apply list_find?_congr
      intro l
      by_cases hl : l.whatsappNumber = p.whatsappNumber
      · simp [Function.comp, hl]
      · simp [Function.comp, hl]
    rw [hmapfind]
    obtain ⟨x, hx, hpx⟩ := List.any_eq_true.mp hany
    have hsome : (db.vendorLinks.find? (fun l => l.whatsappNumber = p.whatsappNumber)).isSome := by
      rw [List.find?_isSome]
      exact ⟨x, hx, hpx⟩
    obtain ⟨l₀, hl₀⟩ := Option.isSome_iff_exists.mp hsome
    have hpl₀ : l₀.whatsappNumber = p.whatsappNumber := by
      have := List.find?_some hl₀
      exact of_decide_eq_true this
    rw [hl₀]
    refine ⟨_, rfl, ?_⟩
    simp [hpl₀, prismaMergeNat, hk]
  · rw [Bool.not_eq_true] at hany
    simp only [hany, Bool.false_eq_true, if_false]
    have hnone : db.vendorLinks.find? (fun l => l.whatsappNumber = p.whatsappNumber) = none := by
      apply List.find?_eq_none.mpr
      intro x hx
      have := List.any_eq_false.mp hany x hx
      simpa using this
    rw [List.find?_append, hnone]
    simp [hk]

/-- After `linkVendor`, every conversation row with the number carries
the supplied account ids. -/
theorem linkVendor_conversations_updated (db : VendorDb) (p : LinkVendorParams)
    (now : Int) (k : Nat) (hk : p.wpStoreId = some k) :
    ∀ c ∈ (linkVendor db p now).conversations, c.whatsappNumber = p.whatsappNumber →
      c.wpUserId = some p.wpUserId ∧ c.wpStoreId = some k := by
  intro c hc hwa
  simp only [linkVendor, List.mem_map] at hc
  obtain ⟨c₀, hc₀, rfl⟩ := hc
  by_cases h : c₀.whatsappNumber = p.whatsappNumber
  · simp [h, prismaMergeNat, hk]
  · simp only [h, if_false] at hwa ⊢

/-- C5: `verify_vendor` called through the dispatcher with a truthy
store id: on a matching store it returns the success result and the
database gains a verified VendorLink for the identity with the
conversation account pointers updated; on a non-matching store (or a
lookup rejection) it returns a `success: false` result and leaves the
database untouched.  In every case the outcome is a returned result
(`Except.ok`), never a thrown error. -/
theorem executeTool_verify_vendor_storeId
    (wp : WpEnv) (input : ToolInput) (context : ConversationContext)
    (db : VendorDb) (now : Int) (sid : Nat)
    (hsid : input.store_id = some sid) (h0 : sid ≠ 0) :
    (∀ vres v, wp.getVendor sid = .ok vres → vendorLookupHit vres = some v →
      (executeTool wp "verify_vendor" input context db now).1 =
        .ok { success := some true, verified := some true,
              vendor := some { id := v.id, store_name := v.store_name },
              message := some "Successfully linked!" }
      ∧ (∃ l, getVendorLink (executeTool wp "verify_vendor" input context db now).2
              context.whatsappNumber = some l ∧
          l.verified = true ∧ l.wpUserId = v.id ∧ l.wpStoreId = some v.id)
      ∧ (∀ c ∈ (executeTool wp "verify_vendor" input context db now).2.conversations,
          c.whatsappNumber = context.whatsappNumber →
            c.wpUserId = some v.id ∧ c.wpStoreId = some v.id))
    ∧ (∀ vres, wp.getVendor sid = .ok vres → vendorLookupHit vres = none →
        executeTool wp "verify_vendor" input context db now =
          (.ok { success := some false,
                 error := some "Could not find a store with that ID. Please double-check and try again." }, db))
    ∧ (∀ e, wp.getVendor sid = .error e →
        executeTool wp "verify_vendor" input context db now =
          (.ok { success := some false, error := some ("Verification failed: " ++ e) }, db)) := by
  have htr : optNatTruthy input.store_id = true := by
    rw [hsid]
    simp [optNatTruthy, h0]
  have hgetD : input.store_id.getD 0 = sid := by rw [hsid]; rfl
  have hexec : executeTool wp "verify_vendor" input context db now =
      (.ok (handleVerifyVendor wp input context db now).1,
        (handleVerifyVendor wp input context db now).2) := by
    rfl
  refine ⟨?_, ?_, ?_⟩
  · intro vres v hvres hhit
    rw [hexec]
    simp only [handleVerifyVendor, htr, if_true, hgetD, hvres, hhit]
    refine ⟨trivial, ?_, ?_⟩
    · exact getVendorLink_after_linkVendor db
        { whatsappNumber := context.whatsappNumber, wpUserId := v.id,
          wpStoreId := some v.id, storeName := v.store_name } now v.id rfl
    · exact linkVendor_conversations_updated db
        { whatsappNumber := context.whatsappNumber, wpUserId := v.id,
          wpStoreId := some v.id, storeName := v.store_name } now v.id rfl
  · intro vres hvres hhit
    rw [hexec]
    simp only [handleVerifyVendor, htr, if_true, hgetD, hvres, hhit]
  · intro e hvres
    rw [hexec]
    simp only [handleVerifyVendor, htr, if_true, hgetD, hvres]

/-- Witness for C5 at the concrete matching store id 7. -/
theorem executeTool_verify_vendor_storeId_witness :
    (executeTool wpEnvC5 "verify_vendor" inputStoreId7 ctx0 db0 0).1 =
      .ok { success := some true, verified := some true,
            vendor := some { id := 7, store_name := some "Mary Store" },
            message := some "Successfully linked!" } :=
  ((executeTool_verify_vendor_storeId wpEnvC5 inputStoreId7 ctx0 db0 0 7 rfl
      (by decide)).1
    { success := some true, vendor := some vendorMary } vendorMary rfl rfl).1

/-- C9: in the email fallback of `verify_vendor` (falsy store id, truthy
store email, vendor listing succeeded), verification succeeds exactly
when some listed vendor's stored email equals the supplied address after
lowercasing both — the comparison is case-insensitive. -/
theorem handleVerifyVendor_email_case_insensitive
    (wp : WpEnv) (input : ToolInput) (context : ConversationContext)
    (db : VendorDb) (now : Int) (e : String) (vendorsResult : ToolResult)
    (hsid : optNatTruthy input.store_id = false)
    (hem : input.store_email = some e) (he : e ≠ "")
    (hlist : wp.listVendors = .ok vendorsResult)
    (hok : vendorsResult.success = some true) :
    ((handleVerifyVendor wp input context db now).1.success = some true ↔
      ∃ v ∈ vendorsResult.vendors, ∃ ev, v.email = some ev ∧ ev.toLower = e.toLower) := by
  have hie : e.isEmpty = false := by
    cases hse : e.isEmpty
    · rfl
    · exact absurd ((String.isEmpty_iff e).mp hse) he
  have htr : optStrTruthy input.store_email = true := by
    rw [hem]
    simp [optStrTruthy, hie]
  have hgetD : input.store_email.getD "" = e := by rw [hem]; rfl
  rcases hfind : vendorsResult.vendors.find? (fun v => emailMatches v e) with _ | mtch
  · simp only [handleVerifyVendor, hsid, Bool.false_eq_true, if_false, htr, if_true,
      hlist, hok, hgetD, hfind]
    simp only [show (some false = some true) = False by simp, false_iff]
    rintro ⟨v, hv, ev, hev, hlow⟩
    have := List.find?_eq_none.mp hfind v hv
    rw [emailMatches, hev] at this
    simp only [Bool.not_eq_true, beq_eq_false_iff_ne] at this
    exact this hlow
  · simp only [handleVerifyVendor, hsid, Bool.false_eq_true, if_false, htr, if_true,
      hlist, hok, hgetD, hfind]
    simp only [true_iff]
    refine ⟨mtch, List.mem_of_find?_eq_some hfind, ?_⟩
    have hp := List.find?_some hfind
    rw [emailMatches] at hp
    rcases hev : mtch.email with _ | ev
    · rw [hev] at hp
      exact absurd hp (by simp)
    · rw [hev] at hp
      exact ⟨ev, rfl, by exact eq_of_beq hp⟩

/-- The code's reverse–take–reverse window equals the spec's "most
recent `n`, chronological" window. -/
theorem historyWindow_eq_specHistory (msgs : List DbMessage) (n : Nat) :
    historyWindow msgs n = specHistory msgs n := by
  unfold historyWindow specHistory specRecentWindow
  rw [← List.rtake_eq_reverse_take_reverse]
  rfl

/-- C6: for an existing conversation, the context holds at most the 20
most recent messages in chronological order with empty-content messages
removed and direction mapped to role (INBOUND ↦ user, OUTBOUND ↦
assistant); a message appended as inbound with non-empty text appears
last in the history with role `user`. -/
theorem getConversationContext_history_spec
    (conversation : Conversation) (msgs : List DbMessage)
    (vendorLink : Option VendorLink) (number : String) (ctx : ConversationContext)
    (h : getConversationContext (some (conversation, msgs)) vendorLink number 20 = .ok ctx) :
    ctx.messageHistory = specHistory msgs 20
    ∧ ctx.messageHistory.length ≤ 20
    ∧ (∀ pre m, msgs = pre ++ [m] → m.direction = .INBOUND → contentTruthy m = true →
        ctx.messageHistory.getLast? = some { role := .user, content := m.content.getD "" }) := by
  have hhist : ctx.messageHistory = historyWindow msgs 20 := by
    simp only [getConversationContext, Except.ok.injEq] at h
    rw [← h]
  have hlen : (specHistory msgs 20).length ≤ 20 := by
    unfold specHistory specRecentWindow
    rw [List.length_map]
    calc (List.filter contentTruthy (msgs.drop (msgs.length - 20))).length
        ≤ (msgs.drop (msgs.length - 20)).length := List.length_filter_le _ _
      _ = msgs.length - (msgs.length - 20) := List.length_drop _ _
      _ ≤ 20 := by omega
  refine ⟨by rw [hhist, historyWindow_eq_specHistory], ?_, ?_⟩
  · rw [hhist, historyWindow_eq_specHistory]
    exact hlen
  · intro pre m hmsgs hdir hct
    rw [hhist]
    subst hmsgs
    unfold historyWindow
    rw [List.reverse_append, List.reverse_singleton, List.singleton_append,
        show (20 : Nat) = 19 + 1 from rfl, List.take_succ_cons, List.reverse_cons,
        List.filter_append, List.map_append]
    have hm : List.filter contentTruthy [m] = [m] := by
      simp [List.filter, hct]
    rw [hm]
    simp only [List.map_cons, List.map_nil]
    rw [List.getLast?_concat]
    rw [hdir]
    rfl

/-- Witness for C6: the appended inbound message round-trips as the
last history entry with role `user`. -/
theorem getConversationContext_history_spec_witness :
    ctxC6.messageHistory.getLast? = some { role := .user, content := "Show products" } :=
  (getConversationContext_history_spec convC6 msgsC6 none "+254733000004" ctxC6 rfl).2.2
    [{ direction := .OUTBOUND, content := some "Hello!", createdAt := 1 },
     { direction := .INBOUND, content := none, createdAt := 2 }]
    { direction := .INBOUND, content := some "Show products", createdAt := 3 }
    rfl rfl (by decide)

/-- A tool-call iteration never touches the model-call counter, the
round counter, the captured reply, or the token counter. -/
theorem performToolCall_preserves (env : AgentEnv) (c : ConversationContext)
    (n : String) (st : LoopState) (tc : ModelToolCall) :
    (performToolCall env c n st tc).modelCalls = st.modelCalls
    ∧ (performToolCall env c n st tc).rounds = st.rounds
    ∧ (performToolCall env c n st tc).finalReply = st.finalReply
    ∧ (performToolCall env c n st tc).totalTokens = st.totalTokens := by
  unfold performToolCall
  split
  · exact ⟨rfl, rfl, rfl, rfl⟩
  · dsimp only
    rcases hE : env.execTool tc.name ((env.parseArgs tc.argumentsStr).getD emptyToolInput) c with e | r
    · simp only [hE]
      exact ⟨trivial, trivial, trivial, trivial⟩
    · simp only [hE]
      exact ⟨trivial, trivial, trivial, trivial⟩

/-- Folding tool-call iterations never touches those components either. -/
theorem foldl_performToolCall_preserves (env : AgentEnv) (c : ConversationContext)
    (n : String) (tcs : List ModelToolCall) :
    ∀ st : LoopState,
      ((tcs.foldl (performToolCall env c n) st).modelCalls = st.modelCalls)
      ∧ ((tcs.foldl (performToolCall env c n) st).rounds = st.rounds)
      ∧ ((tcs.foldl (performToolCall env c n) st).finalReply = st.finalReply)
      ∧ ((tcs.foldl (performToolCall env c n) st).totalTokens = st.totalTokens) := by
  induction tcs with
  | nil => exact fun st => ⟨rfl, rfl, rfl, rfl⟩
  | cons tc t ih =>
      intro st
      simp only [List.foldl_cons]
      obtain ⟨a1, a2, a3, a4⟩ := ih (performToolCall env c n st tc)
      obtain ⟨b1, b2, b3, b4⟩ := performToolCall_preserves env c n st tc
      exact ⟨a1.trans b1, a2.trans b2, a3.trans b3, a4.trans b4⟩

/-- A throwing round: the model call rejected. -/
theorem runRound_threw_eq (env : AgentEnv) (c : ConversationContext)
    (n : String) (st : LoopState) (e : String)
    (henv : env.modelResponse st.modelCalls = .error e) :
    runRound env c n st =
      ({ st with rounds := st.rounds + 1, modelCalls := st.modelCalls + 1 }, .threw) := by
  simp only [runRound, henv]

/-- A breaking round: no tool calls, or a `stop` finish reason. -/
theorem runRound_broke_eq (env : AgentEnv) (c : ConversationContext)
    (n : String) (st : LoopState) (r : ModelResponse)
    (henv : env.modelResponse st.modelCalls = .ok r)
    (hbrk : r.toolCalls.length = 0 ∨ r.finishReason = "stop") :
    runRound env c n st = (breakState st r, .broke) := by
  simp only [runRound, henv, breakState, captureText]
  rw [if_pos hbrk]

/-- A continuing round: tool calls requested without a `stop` finish. -/
theorem runRound_cont_eq (env : AgentEnv) (c : ConversationContext)
    (n : String) (st : LoopState) (r : ModelResponse)
    (henv : env.modelResponse st.modelCalls = .ok r)
    (hbrk : ¬(r.toolCalls.length = 0 ∨ r.finishReason = "stop")) :
    runRound env c n st =
      (r.toolCalls.foldl (performToolCall env c n) (contState st r), .continued) := by
  simp only [runRound, henv, contState, captureText]
  rw [if_neg hbrk]

/-- `captureText` projections. -/
theorem captureText_proj (st : LoopState) (r : ModelResponse) :
    (captureText st r).modelCalls = st.modelCalls + 1
    ∧ (captureText st r).rounds = st.rounds + 1
    ∧ (captureText st r).totalTokens = st.totalTokens + r.totalTokens
    ∧ (captureText st r).invocations = st.invocations
    ∧ (captureText st r).logAttempts = st.logAttempts
    ∧ (captureText st r).actionLog = st.actionLog
    ∧ (captureText st r).allToolCalls = st.allToolCalls
    ∧ (captureText st r).finalReply =
        (if optStrTruthy r.content then (r.content.getD "").trim else st.finalReply) := by
  unfold captureText
  split
  · exact ⟨rfl, rfl, rfl, rfl, rfl, rfl, rfl, by simp_all⟩
  · exact ⟨rfl, rfl, rfl, rfl, rfl, rfl, rfl, by simp_all⟩

/-- `breakState` projections. -/
theorem breakState_proj (st : LoopState) (r : ModelResponse) :
    (breakState st r).modelCalls = st.modelCalls + 1
    ∧ (breakState st r).invocations = st.invocations
    ∧ (breakState st r).logAttempts = st.logAttempts
    ∧ (breakState st r).actionLog = st.actionLog := by
  unfold breakState
  obtain ⟨h1, _, _, h4, h5, h6, _, _⟩ := captureText_proj st r
  split
  · exact ⟨h1, h4, h5, h6⟩
  · exact ⟨h1, h4, h5, h6⟩

/-- The state a breaking round ends in never carries an empty reply:
the hardcoded fallback is substituted exactly there. -/
theorem breakState_finalReply_ne (st : LoopState) (r : ModelResponse) :
    (breakState st r).finalReply ≠ "" := by
  unfold breakState
  split
  · show fallbackReply ≠ ""
    decide
  · assumption

/-- `contState` projections. -/
theorem contState_proj (st : LoopState) (r : ModelResponse) :
    (contState st r).modelCalls = st.modelCalls + 1
    ∧ (contState st r).invocations = st.invocations
    ∧ (contState st r).logAttempts = st.logAttempts
    ∧ (contState st r).actionLog = st.actionLog
    ∧ (contState st r).finalReply =
        (if optStrTruthy r.content then (r.content.getD "").trim else st.finalReply) := by
  unfold contState
  obtain ⟨h1, _, _, h4, h5, h6, _, h8⟩ := captureText_proj st r
  exact ⟨h1, h4, h5, h6, h8⟩

/-- One round makes exactly one model invocation. -/
theorem runRound_modelCalls (env : AgentEnv) (c : ConversationContext)
    (n : String) (st : LoopState) :
    ((runRound env c n st).1).modelCalls = st.modelCalls + 1 := by
  rcases henv : env.modelResponse st.modelCalls with e | r
  · rw [runRound_threw_eq env c n st e henv]
  · by_cases hbrk : r.toolCalls.length = 0 ∨ r.finishReason = "stop"
    · rw [runRound_broke_eq env c n st r henv hbrk]
      exact (breakState_proj st r).1
    · rw [runRound_cont_eq env c n st r henv hbrk]
      exact ((foldl_performToolCall_preserves env c n _ _).1).trans (contState_proj st r).1

/-- The loop makes at most `fuel` model invocations beyond the entry
count. -/
theorem runRounds_modelCalls_le (env : AgentEnv) (c : ConversationContext)
    (n : String) : ∀ (fuel : Nat) (st : LoopState),
    ((runRounds env c n fuel st).1).modelCalls ≤ st.modelCalls + fuel := by
  intro fuel
  induction fuel with
  | zero => intro st; simp [runRounds]
  | succ k ih =>
      intro st
      have hmc := runRound_modelCalls env c n st
      simp only [runRounds]
      rcases hr : runRound env c n st with ⟨st', out⟩
      rw [hr] at hmc
      dsimp only at hmc
      cases out with
      | broke =>
          dsimp only
          omega
      | continued =>
          have := ih st'
          dsimp only
          omega
      | threw =>
          dsimp only
          omega

/-- C3: the number of language-model invocations per `processMessage`
call never exceeds the round cap (`MAX_TOOL_ROUNDS = 3` here, 5 in the
content-block variant — the bound holds for every cap), and the loop is
a total function of its fuel, hence always terminates. -/
theorem processMessage_model_calls_bounded (env : AgentEnv) (cap : Nat)
    (n m : String) (md : Option String) :
    ((processMessageFull env cap n m md).2).modelCalls ≤ cap := by
  cases hctx : env.contextResult with
  | error e => simp [processMessageFull, hctx, initLoopState]
  | ok context =>
      simp only [processMessageFull, hctx]
      rcases hr : runRounds env context n cap (initState context m md) with ⟨st, ex⟩
      have hle := runRounds_modelCalls_le env context n cap (initState context m md)
      rw [hr] at hle
      simp only [initState, initLoopState] at hle
      cases ex with
      | normal => simpa using hle
      | threw => simpa using hle

/-- If the loop exits normally with an empty captured reply, every
consumed round was a tool round (the break branch always leaves a
non-empty reply). -/
theorem runRounds_empty_reply_tool_rounds (env : AgentEnv) (c : ConversationContext)
    (n : String) : ∀ (fuel : Nat) (st st' : LoopState),
    runRounds env c n fuel st = (st', .normal) → st'.finalReply = "" →
    ∀ i, st.modelCalls ≤ i → i < st.modelCalls + fuel → isToolRound env i = true := by
  intro fuel
  induction fuel with
  | zero =>
      intro st st' h hrep i h1 h2
      omega
  | succ k ih =>
      intro st st' h hrep i h1 h2
      rcases henv : env.modelResponse st.modelCalls with e | r
      · rw [runRounds, runRound_threw_eq env c n st e henv] at h
        exact absurd (congrArg Prod.snd h) (by simp)
      · by_cases hbrk : r.toolCalls.length = 0 ∨ r.finishReason = "stop"
        · rw [runRounds, runRound_broke_eq env c n st r henv hbrk] at h
          injection h with h₁ _
          subst h₁
          exact absurd hrep (breakState_finalReply_ne st r)
        · rw [runRounds, runRound_cont_eq env c n st r henv hbrk] at h
          have hmc : ((r.toolCalls).foldl (performToolCall env c n) (contState st r)).modelCalls
              = st.modelCalls + 1 :=
            ((foldl_performToolCall_preserves env c n _ _).1).trans (contState_proj st r).1
          by_cases hi : i = st.modelCalls
          · subst hi
            have hb := not_or.mp hbrk
            simp only [isToolRound, henv]
            simp [hb.1, hb.2]
          · have := ih _ st' h hrep i (by omega) (by omega)
            exact this

/-- C1 (amended): `processMessage` is a total function — every error
from context lookup, the model call, or a tool execution is absorbed
(tool errors locally, the rest by the top-level catch producing the
fixed apology) — and its reply is a non-empty string in every case
except one: when the round budget is exhausted with every round
requesting tools without a clean stop (there the reply is whatever text
was last captured, possibly the empty string, since the hardcoded
fallback is only substituted on a clean stop). -/
theorem processMessage_reply_empty_only_on_exhaustion (env : AgentEnv) (cap : Nat)
    (n m : String) (md : Option String)
    (h : (processMessage env cap n m md).reply = "") :
    allToolRounds env cap = true ∧ contextOk env = true := by
  unfold processMessage at h
  cases hctx : env.contextResult with
  | error e =>
      simp only [processMessageFull, hctx] at h
      exact absurd h (by decide)
  | ok context =>
      simp only [processMessageFull, hctx] at h
      rcases hr : runRounds env context n cap (initState context m md) with ⟨st, ex⟩
      rw [hr] at h
      cases ex with
      | threw =>
          dsimp only at h
          exact absurd h (by decide)
      | normal =>
          dsimp only at h
          have hall := runRounds_empty_reply_tool_rounds env context n cap
            (initState context m md) st hr h
          constructor
          · apply List.all_eq_true.mpr
            intro i hi
            have hic : i < cap := List.mem_range.mp hi
            have h0 : (initState context m md).modelCalls = 0 := rfl
            exact hall i (by omega) (by omega)
          · simp [contextOk, hctx]

/-- C1 counterexample (to the claim as stated): in an environment where
every round requests a tool and produces no text, `processMessage`
resolves — but with the empty string as its reply. -/
theorem processMessage_empty_reply_counterexample :
    (processMessage envExhaustNoText MAX_TOOL_ROUNDS "+254700000001" "hi" none).reply = "" := by
  rfl

/-- Witness for C1 (amended) at the exhausting environment. -/
theorem processMessage_reply_empty_only_on_exhaustion_witness :
    allToolRounds envExhaustNoText MAX_TOOL_ROUNDS = true
    ∧ contextOk envExhaustNoText = true :=
  processMessage_reply_empty_only_on_exhaustion envExhaustNoText MAX_TOOL_ROUNDS
    "+254700000001" "hi" none rfl

/-- When every consumed round is a tool round, the loop exits normally
and its captured reply is exactly the running last-captured text. -/
theorem runRounds_all_tool_rounds_reply (env : AgentEnv) (c : ConversationContext)
    (n : String) : ∀ (fuel : Nat) (st : LoopState),
    (∀ i, st.modelCalls ≤ i → i < st.modelCalls + fuel → isToolRound env i = true) →
    (runRounds env c n fuel st).2 = .normal
    ∧ ((runRounds env c n fuel st).1).finalReply
        = lastCapturedTextAux env st.modelCalls fuel st.finalReply := by
  intro fuel
  induction fuel with
  | zero => intro st h; exact ⟨rfl, rfl⟩
  | succ k ih =>
      intro st h
      have htr : isToolRound env st.modelCalls = true :=
        h st.modelCalls (le_refl _) (by omega)
      rcases henv : env.modelResponse st.modelCalls with e | r
      · rw [isToolRound, henv] at htr
        cases htr
      · have hb : ¬(r.toolCalls.length = 0) ∧ ¬(r.finishReason = "stop") := by
          rw [isToolRound, henv] at htr
          simpa using htr
        have hbrk : ¬(r.toolCalls.length = 0 ∨ r.finishReason = "stop") :=
          not_or.mpr hb
        have hmc : ((r.toolCalls).foldl (performToolCall env c n) (contState st r)).modelCalls
            = st.modelCalls + 1 :=
          ((foldl_performToolCall_preserves env c n _ _).1).trans (contState_proj st r).1
        have hfr : ((r.toolCalls).foldl (performToolCall env c n) (contState st r)).finalReply
            = (if optStrTruthy r.content then (r.content.getD "").trim else st.finalReply) :=
          ((foldl_performToolCall_preserves env c n _ _).2.2.1).trans
            (contState_proj st r).2.2.2.2
        obtain ⟨ihex, ihrep⟩ := ih ((r.toolCalls).foldl (performToolCall env c n) (contState st r))
          (by intro i h1 h2; rw [hmc] at h1 h2; exact h i (by omega) (by omega))
        rw [runRounds, runRound_cont_eq env c n st r henv hbrk]
        refine ⟨ihex, ?_⟩
        rw [ihrep, hmc, hfr, lastCapturedTextAux, henv]

/-- C2 (amended): on loop exhaustion without a clean stop (every round
was a tool round), `processMessage` returns as the reply the last text
the model produced during the loop — and when no round produced any
text this is the empty string, not the hardcoded generic fallback,
which is substituted only on a clean stop. -/
theorem processMessage_exhaustion_reply_is_last_text (env : AgentEnv) (cap : Nat)
    (n m : String) (md : Option String)
    (hall : allToolRounds env cap = true) (hctx : contextOk env = true) :
    (processMessage env cap n m md).reply = lastCapturedText env cap := by
  rcases hc : env.contextResult with e | context
  · rw [contextOk, hc] at hctx
    cases hctx
  · unfold processMessage
    simp only [processMessageFull, hc]
    have h := runRounds_all_tool_rounds_reply env context n cap (initState context m md)
      (by
        intro i h1 h2
        have h0 : (initState context m md).modelCalls = 0 := rfl
        rw [h0] at h2
        exact List.all_eq_true.mp hall i (List.mem_range.mpr (by omega)))
    rcases hr : runRounds env context n cap (initState context m md) with ⟨st, ex⟩
    rw [hr] at h
    cases ex with
    | threw => cases h.1
    | normal =>
        dsimp only
        rw [h.2]
        rfl

/-- C2 counterexample (to the claim as stated): on exhaustion with no
text produced in any round, the reply is the empty string rather than
the hardcoded generic fallback. -/
theorem processMessage_exhaustion_no_fallback_counterexample :
    (processMessage envExhaustNoText MAX_TOOL_ROUNDS "+254700000001" "hi" none).reply = ""
    ∧ ("" : String) ≠ fallbackReply := by
  exact ⟨rfl, by decide⟩

/-- Witness for C2 (amended): with text captured in round 0 and tools
requested every round, the exhausted loop replies with that text. -/
theorem processMessage_exhaustion_reply_is_last_text_witness :
    (processMessage envExhaustWithText MAX_TOOL_ROUNDS "+254700000001" "hi" none).reply
      = lastCapturedText envExhaustWithText MAX_TOOL_ROUNDS :=
  processMessage_exhaustion_reply_is_last_text envExhaustWithText MAX_TOOL_ROUNDS
    "+254700000001" "hi" none (by decide) rfl

/-- A state with the same audit components inherits the invariant. -/
theorem StInv_of_same (env : AgentEnv) (c : ConversationContext) (st st' : LoopState)
    (h4 : st'.invocations = st.invocations) (h5 : st'.logAttempts = st.logAttempts)
    (h6 : st'.actionLog = st.actionLog) (h : StInv env c st) : StInv env c st' := by
  obtain ⟨h1, h2, h3⟩ := h
  refine ⟨by rw [h5, h4, h1], fun hok => by rw [h6, h5, h2 hok], ?_⟩
  intro inv hinv
  exact h3 inv (h4 ▸ hinv)

/-- One tool-call iteration preserves the invariant: it appends exactly
one attempt and one good invocation record. -/
theorem performToolCall_StInv (env : AgentEnv) (c : ConversationContext) (n : String)
    (st : LoopState) (tc : ModelToolCall) (h : StInv env c st) :
    StInv env c (performToolCall env c n st tc) := by
  obtain ⟨h1, h2, h3⟩ := h
  unfold performToolCall
  split
  · exact ⟨h1, h2, h3⟩
  · dsimp only
    rcases hE : env.execTool tc.name ((env.parseArgs tc.argumentsStr).getD emptyToolInput) c with e | r
    · simp only [hE]
      refine ⟨?_, ?_, ?_⟩
      · dsimp only
        rw [List.map_append, h1]
        rfl
      · intro hok
        dsimp only
        rw [logActionWrite, if_pos (hok _), h2 hok]
      · intro inv hinv
        rcases List.mem_append.mp hinv with hmem | hmem
        · exact h3 inv hmem
        · have hi := List.mem_singleton.mp hmem
          subst hi
          refine ⟨by simp, by dsimp only; omega, rfl, rfl, ?_, ?_⟩
          · intro hp
            dsimp only
            rw [hp]
            rfl
          · exact hE.symm
    · simp only [hE]
      refine ⟨?_, ?_, ?_⟩
      · dsimp only
        rw [List.map_append, h1]
        rfl
      · intro hok
        dsimp only
        rw [logActionWrite, if_pos (hok _), h2 hok]
      · intro inv hinv
        rcases List.mem_append.mp hinv with hmem | hmem
        · exact h3 inv hmem
        · have hi := List.mem_singleton.mp hmem
          subst hi
          refine ⟨by simp, by dsimp only; omega, rfl, rfl, ?_, ?_⟩
          · intro hp
            dsimp only
            rw [hp]
            rfl
          · exact hE.symm

/-- Folding tool-call iterations preserves the invariant. -/
theorem foldl_performToolCall_StInv (env : AgentEnv) (c : ConversationContext)
    (n : String) (tcs : List ModelToolCall) :
    ∀ st : LoopState, StInv env c st →
      StInv env c (tcs.foldl (performToolCall env c n) st) := by
  induction tcs with
  | nil => exact fun st h => h
  | cons tc t ih =>
      intro st h
      simp only [List.foldl_cons]
      exact ih _ (performToolCall_StInv env c n st tc h)

/-- One round preserves the invariant. -/
theorem runRound_StInv (env : AgentEnv) (c : ConversationContext) (n : String)
    (st : LoopState) (h : StInv env c st) : StInv env c ((runRound env c n st).1) := by
  rcases henv : env.modelResponse st.modelCalls with e | r
  · rw [runRound_threw_eq env c n st e henv]
    exact StInv_of_same env c st _ rfl rfl rfl h
  · by_cases hbrk : r.toolCalls.length = 0 ∨ r.finishReason = "stop"
    · rw [runRound_broke_eq env c n st r henv hbrk]
      obtain ⟨_, p2, p3, p4⟩ := breakState_proj st r
      exact StInv_of_same env c st _ p2 p3 p4 h
    · rw [runRound_cont_eq env c n st r henv hbrk]
      obtain ⟨_, p2, p3, p4, _⟩ := contState_proj st r
      exact foldl_performToolCall_StInv env c n _ _ (StInv_of_same env c st _ p2 p3 p4 h)

/-- The whole loop preserves the invariant. -/
theorem runRounds_StInv (env : AgentEnv) (c : ConversationContext) (n : String) :
    ∀ (fuel : Nat) (st : LoopState), StInv env c st →
      StInv env c ((runRounds env c n fuel st).1) := by
  intro fuel
  induction fuel with
  | zero => exact fun st h => h
  | succ k ih =>
      intro st h
      have hrr := runRound_StInv env c n st h
      simp only [runRounds]
      rcases hr : runRound env c n st with ⟨st', out⟩
      rw [hr] at hrr
      cases out with
      | broke => exact hrr
      | continued => exact ih st' hrr
      | threw => exact hrr

/-- The invariant holds for every final state of `processMessageFull`. -/
theorem processMessageFull_StInv (env : AgentEnv) (cap : Nat) (n m : String)
    (md : Option String) (context : ConversationContext)
    (hctx : env.contextResult = .ok context) :
    StInv env context (processMessageFull env cap n m md).2 := by
  simp only [processMessageFull, hctx]
  have h0 : StInv env context (initState context m md) := by
    refine ⟨rfl, fun _ => rfl, ?_⟩
    intro inv hinv
    cases hinv
  have h := runRounds_StInv env context n cap (initState context m md) h0
  rcases hr : runRounds env context n cap (initState context m md) with ⟨st, ex⟩
  rw [hr] at h
  cases ex with
  | normal => exact h
  | threw => exact h

/-- A tool-call iteration only reads `logWriteOk` and the Action Log
table to build the new table: under a different write oracle and a
different starting table, everything else it produces is unchanged. -/
theorem performToolCall_logWriteOk_frame (env : AgentEnv) (f : Nat → Bool)
    (c : ConversationContext) (n : String) (st : LoopState)
    (B : List ActionLogEntry) (tc : ModelToolCall) :
    ∃ A, performToolCall { env with logWriteOk := f } c n { st with actionLog := B } tc
        = { performToolCall env c n st tc with actionLog := A } := by
  cases st with
  | mk msgs atc tt fr rd mc nw al la inv =>
      unfold performToolCall
      split
      · exact ⟨B, rfl⟩
      · dsimp only
        rcases hE : env.execTool tc.name ((env.parseArgs tc.argumentsStr).getD emptyToolInput) c with e | r
        · simp only [hE]
          exact ⟨_, rfl⟩
        · simp only [hE]
          exact ⟨_, rfl⟩

/-- The tool-call fold under a different write oracle and table. -/
theorem foldl_performToolCall_logWriteOk_frame (env : AgentEnv) (f : Nat → Bool)
    (c : ConversationContext) (n : String) (tcs : List ModelToolCall) :
    ∀ (st : LoopState) (B : List ActionLogEntry),
    ∃ A, tcs.foldl (performToolCall { env with logWriteOk := f } c n) { st with actionLog := B }
        = { tcs.foldl (performToolCall env c n) st with actionLog := A } := by
  induction tcs with
  | nil => exact fun st B => ⟨B, rfl⟩
  | cons tc t ih =>
      intro st B
      simp only [List.foldl_cons]
      obtain ⟨A₁, h₁⟩ := performToolCall_logWriteOk_frame env f c n st B tc
      rw [h₁]
      exact ih (performToolCall env c n st tc) A₁

/-- `captureText` ignores the Action Log table. -/
theorem captureText_actionLog_set (st : LoopState) (B : List ActionLogEntry)
    (r : ModelResponse) :
    captureText { st with actionLog := B } r = { captureText st r with actionLog := B } := by
  cases st
  unfold captureText
  dsimp only
  split
  · rfl
  · rfl

/-- `breakState` ignores the Action Log table. -/
theorem breakState_actionLog_set (st : LoopState) (B : List ActionLogEntry)
    (r : ModelResponse) :
    breakState { st with actionLog := B } r = { breakState st r with actionLog := B } := by
  unfold breakState
  rw [captureText_actionLog_set]
  generalize captureText st r = ct
  cases ct
  dsimp only
  split
  · rfl
  · rfl

/-- `contState` ignores the Action Log table. -/
theorem contState_actionLog_set (st : LoopState) (B : List ActionLogEntry)
    (r : ModelResponse) :
    contState { st with actionLog := B } r = { contState st r with actionLog := B } := by
  unfold contState
  rw [captureText_actionLog_set]

/-- One round under a different write oracle and table: same state up
to the Action Log, same outcome. -/
theorem runRound_logWriteOk_frame (env : AgentEnv) (f : Nat → Bool)
    (c : ConversationContext) (n : String) (st : LoopState) (B : List ActionLogEntry) :
    ∃ A, runRound { env with logWriteOk := f } c n { st with actionLog := B }
        = ({ (runRound env c n st).1 with actionLog := A }, (runRound env c n st).2) := by
  rcases henv : env.modelResponse st.modelCalls with e | r
  · rw [runRound_threw_eq { env with logWriteOk := f } c n { st with actionLog := B } e henv,
        runRound_threw_eq env c n st e henv]
    exact ⟨B, rfl⟩
  · by_cases hbrk : r.toolCalls.length = 0 ∨ r.finishReason = "stop"
    · rw [runRound_broke_eq { env with logWriteOk := f } c n { st with actionLog := B } r henv hbrk,
          runRound_broke_eq env c n st r henv hbrk]
      exact ⟨B, by rw [breakState_actionLog_set]⟩
    · rw [runRound_cont_eq { env with logWriteOk := f } c n { st with actionLog := B } r henv hbrk,
          runRound_cont_eq env c n st r henv hbrk]
      rw [contState_actionLog_set]
      obtain ⟨A, hA⟩ := foldl_performToolCall_logWriteOk_frame env f c n r.toolCalls
        (contState st r) B
      exact ⟨A, by rw [hA]⟩

/-- The whole loop under a different write oracle and table. -/
theorem runRounds_logWriteOk_frame (env : AgentEnv) (f : Nat → Bool)
    (c : ConversationContext) (n : String) :
    ∀ (fuel : Nat) (st : LoopState) (B : List ActionLogEntry),
    ∃ A, runRounds { env with logWriteOk := f } c n fuel { st with actionLog := B }
        = ({ (runRounds env c n fuel st).1 with actionLog := A },
           (runRounds env c n fuel st).2) := by
  intro fuel
  induction fuel with
  | zero => exact fun st B => ⟨B, rfl⟩
  | succ k ih =>
      intro st B
      obtain ⟨A₁, h₁⟩ := runRound_logWriteOk_frame env f c n st B
      rcases hr : runRound env c n st with ⟨st', out⟩
      rw [hr] at h₁
      simp only [runRounds]
      rw [h₁, hr]
      cases out with
      | broke => exact ⟨A₁, rfl⟩
      | continued => exact ih st' A₁
      | threw => exact ⟨A₁, rfl⟩

/-- The user-visible outcome of `processMessage` does not depend on the
fate of the Action Log writes. -/
theorem processMessageFull_logWriteOk_frame (env : AgentEnv) (f : Nat → Bool)
    (cap : Nat) (n m : String) (md : Option String) :
    (processMessageFull { env with logWriteOk := f } cap n m md).1
      = (processMessageFull env cap n m md).1 := by
  rcases hctx : env.contextResult with e | context
  · simp only [processMessageFull, hctx]
  · simp only [processMessageFull, hctx]
    obtain ⟨A, hA⟩ := runRounds_logWriteOk_frame env f context n cap
      (initState context m md) []
    have hA' : runRounds { env with logWriteOk := f } context n cap (initState context m md)
        = ({ (runRounds env context n cap (initState context m md)).1 with actionLog := A },
           (runRounds env context n cap (initState context m md)).2) := hA
    rw [hctx] at hA'
    rw [hA']
    rcases hr : runRounds env context n cap (initState context m md) with ⟨st, ex⟩
    cases ex with
    | normal => rfl
    | threw => rfl

/-- C4: every dispatcher invocation the loop makes — returning or
throwing — attempts exactly one Action Log write, in order (the attempt
list is precisely the per-invocation entries); when every write lands
the persisted table is exactly those entries; each entry's success flag
is false iff the tool threw or its result carried `success: false`, and
its duration is non-negative; and a failing log write never changes the
user-visible outcome. -/
theorem every_tool_invocation_logged_once (env : AgentEnv) (cap : Nat)
    (n m : String) (md : Option String) :
    ((processMessageFull env cap n m md).2.logAttempts
      = (processMessageFull env cap n m md).2.invocations.map (fun i => i.entry))
    ∧ ((∀ k, env.logWriteOk k = true) →
        (processMessageFull env cap n m md).2.actionLog
          = (processMessageFull env cap n m md).2.logAttempts)
    ∧ (∀ context, env.contextResult = .ok context →
        ∀ inv ∈ (processMessageFull env cap n m md).2.invocations,
          (inv.entry.success = false ↔
            ((∃ e, inv.outcome = .error e)
              ∨ (∃ r, inv.outcome = .ok r ∧ r.success = some false)))
          ∧ 0 ≤ inv.entry.durationMs)
    ∧ (∀ f, (processMessageFull { env with logWriteOk := f } cap n m md).1
        = (processMessageFull env cap n m md).1) := by
  refine ⟨?_, ?_, ?_, ?_⟩
  · rcases hctx : env.contextResult with e | context
    · simp [processMessageFull, hctx, initLoopState]
    · exact (processMessageFull_StInv env cap n m md context hctx).1
  · intro hok
    rcases hctx : env.contextResult with e | context
    · simp [processMessageFull, hctx, initLoopState]
    · exact (processMessageFull_StInv env cap n m md context hctx).2.1 hok
  · intro context hctx inv hinv
    have h := (processMessageFull_StInv env cap n m md context hctx).2.2 inv hinv
    exact ⟨h.1, h.2.1⟩
  · intro f
    exact processMessageFull_logWriteOk_frame env f cap n m md

/-- Witness for C4: the first invocation of the exhausting run has a
non-negative logged duration. -/
theorem every_tool_invocation_logged_once_witness :
    0 ≤ invC4.entry.durationMs := by
  have hmem : invC4 ∈
      (processMessageFull envExhaustNoText MAX_TOOL_ROUNDS "+254700000001" "hi" none).2.invocations := by
    rw [show (processMessageFull envExhaustNoText MAX_TOOL_ROUNDS "+254700000001" "hi" none).2.invocations
        = invC4 ::
          ((processMessageFull envExhaustNoText MAX_TOOL_ROUNDS "+254700000001" "hi" none).2.invocations).tail
        from rfl]
    exact List.mem_cons_self _ _
  exact ((every_tool_invocation_logged_once envExhaustNoText MAX_TOOL_ROUNDS
    "+254700000001" "hi" none).2.2.1 ctx0 rfl invC4 hmem).2

/-- C7: every dispatcher invocation whose raw argument string failed to
parse was passed the empty argument object, and the dispatcher was
called on exactly the recorded input — the parse error is absorbed
inside the round, never propagated. -/
theorem parse_failure_gives_empty_args (env : AgentEnv) (cap : Nat)
    (n m : String) (md : Option String) (context : ConversationContext)
    (hctx : env.contextResult = .ok context) :
    ∀ inv ∈ (processMessageFull env cap n m md).2.invocations,
      (env.parseArgs inv.rawArgs = none → inv.input = emptyToolInput)
      ∧ inv.outcome = env.execTool inv.toolName inv.input context := by
  intro inv hinv
  have h := (processMessageFull_StInv env cap n m md context hctx).2.2 inv hinv
  exact ⟨h.2.2.2.2.1, h.2.2.2.2.2⟩

/-- Witness for C7: the unparseable argument string of the recorded
invocation turned into the empty argument object. -/
theorem parse_failure_gives_empty_args_witness :
    invC7.input = emptyToolInput := by
  have hmem : invC7 ∈
      (processMessageFull envOneToolRound MAX_TOOL_ROUNDS "+254700000001" "hi" none).2.invocations := by
    rw [show (processMessageFull envOneToolRound MAX_TOOL_ROUNDS "+254700000001" "hi" none).2.invocations
        = invC7 ::
          ((processMessageFull envOneToolRound MAX_TOOL_ROUNDS "+254700000001" "hi" none).2.invocations).tail
        from rfl]
    exact List.mem_cons_self _ _
  exact (parse_failure_gives_empty_args envOneToolRound MAX_TOOL_ROUNDS
    "+254700000001" "hi" none ctx0 rfl invC7 hmem).1 rfl

/-- Witness for C9 at a concrete vendor listing. -/
theorem handleVerifyVendor_email_case_insensitive_witness :
    (handleVerifyVendor wpEnvC9 inputEmailAlice ctx0 db0 0).1.success = some true :=
  (handleVerifyVendor_email_case_insensitive wpEnvC9 inputEmailAlice ctx0 db0 0
      "Alice@Shop.KE"
      { success := some true
        vendors := [{ id := 9, store_name := some "Sunrise", email := some "Alice@Shop.KE" }] }
      rfl rfl (by decide) rfl rfl).mpr
    ⟨{ id := 9, store_name := some "Sunrise", email := some "Alice@Shop.KE" },
      by simp, "Alice@Shop.KE", rfl, rfl⟩

end MomBoss
